import Mathlib

/-!
Shallow embedding of the leadgen scraper core (src/scraper/maps_scraper.py,
src/utils/email_finder.py) together with proofs about the embedded
operations.  External boundaries (the live DOM, the network) are modelled as
oracle parameters; everything the Python code computes itself is translated
directly.  All string primitives that Python uses (`lower`, `strip`,
`split`, prefix/substring tests) are implemented structurally over the
character list of a `String` so that every definition evaluates inside the
kernel.
-/

namespace Leadgen

/-- ASCII lower-casing of a string, character by character (Python `str.lower`
for the ASCII inputs this code handles). -/
def toLowerStr (s : String) : String :=
  String.mk (s.data.map Char.toLower)

/-- Whitespace trimming on both ends (Python `str.strip`). -/
def strTrim (s : String) : String :=
  String.mk (((s.data.dropWhile Char.isWhitespace).reverse.dropWhile
    Char.isWhitespace).reverse)

/-- Boolean prefix test (Python `str.startswith`). -/
def strStartsWithB (s p : String) : Bool :=
  p.data.isPrefixOf s.data

/-- Worker for the substring test: does `t` start at some position of the
second list? -/
def containsGo (t : List Char) : List Char → Bool
  | [] => t.isEmpty
  | c :: rest => t.isPrefixOf (c :: rest) || containsGo t rest

/-- Boolean substring test: `strContainsB s t` holds when `t` occurs inside
`s` (Python `t in s`). -/
def strContainsB (s t : String) : Bool :=
  containsGo t.data s.data

/-- Drop the first `n` characters of a string. -/
def strDrop (s : String) (n : Nat) : String :=
  String.mk (s.data.drop n)

/-- Splitting worker: walks the text left to right, cutting at each
non-overlapping occurrence of the (nonempty) separator.  The `fuel`
argument only bounds the recursion; every call site passes
`length + 1` fuel, and each step consumes at least one character, so the
fuel-0 fallback is never reached. -/
def splitGo (sep : List Char) : Nat → List Char → List Char → List (List Char)
  | 0, rest, cur => [cur ++ rest]
  | _ + 1, [], cur => [cur]
  | fuel + 1, c :: rest, cur =>
    if sep.isPrefixOf (c :: rest) then
      cur :: splitGo sep fuel (List.drop sep.length (c :: rest)) []
    else
      splitGo sep fuel rest (cur ++ [c])

/-- Python `str.split(sep)` for a nonempty separator. -/
def strSplitOn (s sep : String) : List String :=
  if sep = "" then [s]
  else (splitGo sep.data (s.data.length + 1) s.data []).map String.mk

/-- Lexicographic comparison of character lists by code point, the ordering
Python uses for `str` comparison. -/
def lexLe : List Char → List Char → Bool
  | [], _ => true
  | _ :: _, [] => false
  | a :: as, b :: bs =>
    if a.toNat < b.toNat then true
    else if b.toNat < a.toNat then false
    else lexLe as bs

/-! ### src/utils/email_finder.py -/

/-- The 17 role prefixes of `EmailFinder.common_prefixes`. -/
def common_prefixes : List String :=
  ["contact", "info", "hello", "support", "admin", "sales",
   "help", "office", "mail", "team", "business", "inquiries",
   "feedback", "customer", "service", "general", "manager"]

/-- `EmailFinder.extract_domain_from_url`: lower-case and trim, strip a
leading `http://` or `https://` scheme, strip a leading `www.`, and keep the
part before the first `/`.  Returns `none` exactly when the input is empty
(the Python function returns `None` for a falsy url; its `try` body cannot
raise). -/
def extract_domain_from_url (url : String) : Option String :=
  if url = "" then none
  else
    let d := toLowerStr (strTrim url)
    let d := if strStartsWithB d "https://" then strDrop d 8
             else if strStartsWithB d "http://" then strDrop d 7 else d
    let d := if strStartsWithB d "www." then strDrop d 4 else d
    some ((strSplitOn d "/").headD "")

/-- Keep only ASCII letters and digits (Python `re.sub(r'[^a-zA-Z0-9]', '', s)`). -/
def keepAlnum (s : String) : String :=
  String.mk (s.data.filter (fun c => c.isAlpha || c.isDigit))

/-- Keep only ASCII lower-case letters (Python `re.sub(r'[^a-z]', '', s)`). -/
def keepLowerAlpha (s : String) : String :=
  String.mk (s.data.filter Char.isLower)

/-- `EmailFinder.generate_common_emails`: one address per role prefix at the
domain, then business-name-derived addresses, then owner-name permutations.
The enrichment entry point always passes `none` for the owner name. -/
def generate_common_emails (domain : String) (business_name : String)
    (owner_name : Option String) : List String :=
  if domain = "" then []
  else
    let gen := common_prefixes.map (fun p => p ++ "@" ++ domain)
    let gen :=
      if business_name ≠ "" then
        let clean_name := keepAlnum (toLowerStr business_name)
        if clean_name ≠ "" then
          gen ++ [clean_name ++ "@" ++ domain,
                  "info@" ++ clean_name ++ "." ++ (strSplitOn domain ".").getLastD ""]
        else gen
      else gen
    match owner_name with
    | none => gen
    | some owner =>
      let name_parts := ((toLowerStr owner).split Char.isWhitespace).filter (· ≠ "")
      if name_parts.length ≥ 2 then
        let first_name := keepLowerAlpha (name_parts.headD "")
        let last_name := keepLowerAlpha (name_parts.getLastD "")
        if first_name ≠ "" ∧ last_name ≠ "" then
          gen ++ [first_name ++ "@" ++ domain,
                  last_name ++ "@" ++ domain,
                  first_name ++ "." ++ last_name ++ "@" ++ domain,
                  first_name.take 1 ++ last_name ++ "@" ++ domain,
                  first_name ++ last_name.take 1 ++ "@" ++ domain]
        else gen
      else gen

/-- An anchor element of a fetched page: its `href` target and its link text
(`soup.find_all('a', href=True)`). -/
structure Anchor where
  href : String
  text : String
deriving DecidableEq, Repr

/-- Observation of one successfully fetched page: the e-mail addresses that
`find_emails_on_page` extracts from its body (regex over external page text,
already lower-cased and deduplicated), and its anchor elements. -/
structure PageData where
  pageEmails : List String
  anchors : List Anchor
deriving Repr

/-- Does this anchor trigger the contact/about scan?  Mirrors
`'contact' in link_text or 'about' in link_text or 'contact' in href.lower()
or 'about' in href.lower()` guarded by a truthy `href`. -/
def linkMatches (a : Anchor) : Bool :=
  a.href ≠ "" &&
    (strContainsB (toLowerStr a.text) "contact" ||
     strContainsB (toLowerStr a.text) "about" ||
     strContainsB (toLowerStr a.href) "contact" ||
     strContainsB (toLowerStr a.href) "about")

/-- Resolution of a matching anchor's target against the site domain.
`none` is the branch where the Python code assigns nothing to `contact_url`:
an absolute link whose domain does not contain the site domain as a
substring. -/
def resolveContactUrl (domain href : String) : Option String :=
  if strStartsWithB href "/" then some ("https://" ++ domain ++ href)
  else if strStartsWithB href "http://" || strStartsWithB href "https://" then
    if strContainsB ((extract_domain_from_url href).getD "") domain then some href
    else none
  else some ("https://" ++ domain ++ "/" ++ href)

/-- One iteration of the first-page link scan (the body of
`for link in soup.find_all('a', href=True)`): a non-matching anchor changes
nothing; a matching anchor that resolves is enqueued unless already visited
or queued and becomes the value of the Python local `contact_url`; a
matching anchor that does not resolve re-checks the previous `contact_url`
value, and when none was ever assigned reading it raises `NameError`
(`Except.error`). -/
def stepLink (domain : String) (visited frontier : List String)
    (lastContact : Option String) (a : Anchor) :
    Except Unit (List String × Option String) :=
  if linkMatches a then
    match resolveContactUrl domain a.href with
    | some cu =>
      Except.ok
        (if cu ∉ visited ∧ cu ∉ frontier then frontier ++ [cu] else frontier, some cu)
    | none =>
      match lastContact with
      | some cu =>
        Except.ok
          (if cu ∉ visited ∧ cu ∉ frontier then frontier ++ [cu] else frontier, some cu)
      | none => Except.error ()
  else Except.ok (frontier, lastContact)

/-- The first-page link scan of `scrape_website_for_emails`: fold
`stepLink` over the anchors; a `NameError` aborts the scan (and, upstream,
the whole crawl through the outer handler). -/
def processLinks (domain : String) (visited : List String) :
    List String → Option String → List Anchor → Except Unit (List String)
  | frontier, _, [] => Except.ok frontier
  | frontier, lastContact, a :: rest =>
    (stepLink domain visited frontier lastContact a).bind
      (fun p => processLinks domain visited p.1 p.2 rest)

/-- Insert an e-mail address into the accumulated set unless already
present (the Python `set` is modelled as an order-preserving
duplicate-free list). -/
def insertIfAbsent (l : List String) (e : String) : List String :=
  if e ∈ l then l else l ++ [e]

/-- `all_emails.update(page_emails)`. -/
def insertAll (l es : List String) : List String :=
  es.foldl insertIfAbsent l

/-- The crawl loop of `scrape_website_for_emails` from its second processed
page onward (every iteration here has `page_count ≥ 2` after the increment,
so the first-page link scan is disabled and the frontier never grows).
Arguments: frontier, visited set, page count, accumulated e-mails, trace of
addresses handed to `requests.get`.  Returns the e-mails and the fetch
trace. -/
def crawlRest (fetch : String → Option PageData) (maxPages : Nat) :
    List String → List String → Nat → List String → List String →
    List String × List String
  | [], _, _, emails, trace => (emails, trace)
  | u :: rest, visited, pageCount, emails, trace =>
    if pageCount < maxPages then
      if u ∈ visited then crawlRest fetch maxPages rest visited pageCount emails trace
      else
        match fetch u with
        | none =>
          crawlRest fetch maxPages rest (visited ++ [u]) (pageCount + 1) emails (trace ++ [u])
        | some pg =>
          crawlRest fetch maxPages rest (visited ++ [u]) (pageCount + 1)
            (insertAll emails pg.pageEmails) (trace ++ [u])
    else (emails, trace)

/-- `EmailFinder.scrape_website_for_emails`.  The network is the oracle
`fetch` (`none` = `requests.RequestException`, including the `MissingSchema`
raised for a scheme-less address).  Faithful to the source order: the
frontier is seeded with the *raw* `url` argument before the scheme
normalization, which only feeds the domain computation.  Since the visited
set starts empty and the frontier is the singleton `[url]`, the first loop
iteration is written out directly (it processes `url` as page 1 and runs the
link scan); `crawlRest` continues from page 2 on.  Returns the collected
e-mails and the trace of fetched addresses. -/
def scrape_website_for_emails (fetch : String → Option PageData)
    (url : String) (maxPages : Nat) : List String × List String :=
  let url2 := if !(strStartsWithB url "http://" || strStartsWithB url "https://")
              then "https://" ++ url else url
  let domain := (extract_domain_from_url url2).getD ""
  if maxPages = 0 then ([], [])
  else
    match fetch url with
    | none => ([], [url])
    | some pg =>
      let emails1 := insertAll [] pg.pageEmails
      match processLinks domain [url] [] none pg.anchors with
      | Except.error _ => (emails1, [url])
      | Except.ok frontier1 => crawlRest fetch maxPages frontier1 [url] 1 emails1 [url]

/-! Dictionary values of a business-data record (a Python `dict` with
string, list, `None` and nested-mapping values, in insertion order). -/

/-- A value stored in a business-data dictionary. -/
inductive JVal where
  | str (s : String)
  | strList (l : List String)
  | map (m : List (String × String))
  | null
deriving DecidableEq, Repr

/-- Python truthiness of a stored value. -/
def truthyJ : JVal → Bool
  | JVal.str s => s ≠ ""
  | JVal.strList l => !l.isEmpty
  | JVal.map m => !m.isEmpty
  | JVal.null => false

/-- `d[k] = v` on a Python dict: replace in place when the key exists,
append otherwise. -/
def setKey : List (String × JVal) → String → JVal → List (String × JVal)
  | [], k, v => [(k, v)]
  | (k2, v2) :: rest, k, v =>
    if k2 = k then (k, v) :: rest else (k2, v2) :: setKey rest k v

/-- The local part of an address, lower-cased
(`email.split('@')[0].lower()`). -/
def emailLocalPart (e : String) : String :=
  toLowerStr ((strSplitOn e "@").headD "")

/-- The priority prefixes of `enrich_business_data_with_emails` (the source
lists `hello` twice; the duplicate is kept verbatim). -/
def priority_prefixes : List String :=
  ["contact", "info", "hello", "support", "admin", "sales", "hello"]

/-- Does the address's local part equal one of the priority prefixes? -/
def isPriorityEmail (e : String) : Bool :=
  priority_prefixes.any (fun p => p = emailLocalPart e)

/-- First component of the Python sort key `(0 if priority else 1, email)`. -/
def priorityRank (e : String) : Nat :=
  if isPriorityEmail e then 0 else 1

/-- The comparison realised by sorting with key
`(0 if priority else 1, email)`: rank first, then code-point order on the
full address. -/
def emailLEb (a b : String) : Bool :=
  if priorityRank a < priorityRank b then true
  else if priorityRank b < priorityRank a then false
  else lexLe a.data b.data

/-- `emailLEb` as a relation, for use with `List.insertionSort`. -/
def emailRel (a b : String) : Prop := emailLEb a b = true

instance : DecidableRel emailRel := fun a b =>
  inferInstanceAs (Decidable (emailLEb a b = true))

/-- The `primary_email` value chosen from the sorted list
(`sorted_emails[0] if sorted_emails else None`). -/
def primaryOf (l : List String) : JVal :=
  match l.head? with
  | some e => JVal.str e
  | none => JVal.null

/-- Lines 328–345 of `enrich_business_data_with_emails`: sort the collected
addresses with the priority key and store `emails` and `primary_email` into
the record; with no addresses, store an empty list and `None`. -/
def finalize_emails (emails : List String) (bd : List (String × JVal)) :
    List (String × JVal) :=
  if emails ≠ [] then
    let sorted_emails := List.insertionSort emailRel emails
    setKey (setKey bd "emails" (JVal.strList sorted_emails)) "primary_email"
      (primaryOf sorted_emails)
  else
    setKey (setKey bd "emails" (JVal.strList [])) "primary_email" JVal.null

/-- `EmailFinder.enrich_business_data_with_emails`.  The website crawl is
abstracted by `scrape`: `Except.ok es` is the list returned by
`scrape_website_for_emails`, `Except.error e` stands for an unexpected
exception inside the `try` body, answered by the handler that stores an
empty e-mail list and `None` and returns the record otherwise untouched. -/
def enrich_business_data_with_emails (scrape : Except String (List String))
    (bd : List (String × JVal)) : List (String × JVal) :=
  match scrape with
  | Except.error _ =>
    setKey (setKey bd "emails" (JVal.strList [])) "primary_email" JVal.null
  | Except.ok scraped =>
    let website : Option String :=
      match bd.lookup "website" with
      | some (JVal.str s) => if s ≠ "" then some s else none
      | _ => none
    let business_name : String :=
      match bd.lookup "name" with
      | some (JVal.str s) => s
      | _ => ""
    let emails : List String :=
      match website with
      | none => []
      | some w =>
        let e1 := if scraped ≠ [] then scraped else []
        match extract_domain_from_url w with
        | none => e1
        | some d =>
          if d ≠ "" then
            let generated := generate_common_emails d business_name none
            if e1 = [] ∧ generated ≠ [] then e1 ++ generated else e1
          else e1
    finalize_emails emails bd

/-- The `emails` list stored in a record (empty when absent or not a list). -/
def emailsOf (bd : List (String × JVal)) : List String :=
  match bd.lookup "emails" with
  | some (JVal.strList l) => l
  | _ => []

/-! ### src/scraper/maps_scraper.py — `scroll_results` -/

/-- The scroll loop of `GoogleMapsScraper.scroll_results`.  `obs i` is the
DOM's answer to the recount after scroll attempt `i` (`none` when no
business selector matches, in which case the stale element list keeps the
previous count).  State: previous count, current count, scroll attempts,
trace of counts seen so far.  The loop condition is the source's
`current < max_results and current > prev and attempts < 10`; the structural
`fuel` starts at 10 and equals `10 - attempts` at every call, so the fuel-0
fallback coincides with the loop-exit result and is semantically inert.
Returns the final count, the number of scroll attempts, and the trace. -/
def scrollLoop (obs : Nat → Option Nat) (maxResults : Nat) :
    Nat → Nat → Nat → Nat → List Nat → Nat × Nat × List Nat
  | 0, _, cur, attempts, trace => (cur, attempts, trace)
  | fuel + 1, prev, cur, attempts, trace =>
    if cur < maxResults ∧ prev < cur ∧ attempts < 10 then
      let cur2 := (obs attempts).getD cur
      scrollLoop obs maxResults fuel cur cur2 (attempts + 1) (trace ++ [cur2])
    else (cur, attempts, trace)

/-- `GoogleMapsScraper.scroll_results` after the initial count has been
read: previous count starts at 0, attempts at 0, and the trace opens with
the initial count. -/
def scroll_results (obs : Nat → Option Nat) (maxResults cInit : Nat) :
    Nat × Nat × List Nat :=
  scrollLoop obs maxResults 10 0 cInit 0 [cInit]

/-! ### src/scraper/maps_scraper.py — `setup_driver` -/

/-- One environment for driver acquisition: whether a Chrome binary path was
found (only possible on Windows), and the outcomes of the four underlying
launch operations. -/
structure DriverEnv where
  hasChromePath : Bool
  versionFetch : Except String Unit
  defaultFetch : Except String Unit
  builtin : Except String Unit
  explicitPath : Except String Unit
deriving Repr

/-- One iteration body of the `setup_driver` retry loop, by attempt number.
Attempt 1 tries the version-matched webdriver-manager fetch (when a Chrome
path is known) and falls through to the default fetch; attempt 2 uses the
built-in ChromeDriver; attempt 3 uses the explicit binary path when
available and otherwise re-raises `last_error` (or a fresh message when no
error was recorded). -/
def setupAttempt (env : DriverEnv) (n : Nat) (lastErr : Option String) :
    Except String Unit :=
  if n = 1 then
    if env.hasChromePath then
      match env.versionFetch with
      | Except.ok _ => Except.ok ()
      | Except.error _ => env.defaultFetch
    else env.defaultFetch
  else if n = 2 then env.builtin
  else
    if env.hasChromePath then env.explicitPath
    else Except.error
      (lastErr.getD "Failed to initialize ChromeDriver after multiple attempts")

/-- The `while attempts < max_attempts` loop of `setup_driver`.  Returns the
number of attempts made, the last recorded error and whether a driver was
obtained.  The structural `fuel` starts at 3 and equals `3 - attempts`, so
the fuel-0 fallback coincides with the loop-exit result. -/
def setupLoop (env : DriverEnv) : Nat → Nat → Option String → Nat × Option String × Bool
  | 0, attempts, lastErr => (attempts, lastErr, false)
  | fuel + 1, attempts, lastErr =>
    if attempts < 3 then
      match setupAttempt env (attempts + 1) lastErr with
      | Except.ok _ => (attempts + 1, lastErr, true)
      | Except.error e => setupLoop env fuel (attempts + 1) (some e)
    else (attempts, lastErr, false)

/-- The marker `setup_driver` looks for to rewrite the failure text. -/
def win32Marker : String := "not a valid Win32 application"

/-- The normalized compatibility message (contraction expanded). -/
def friendlyWin32 : String :=
  "ChromeDriver compatibility issue. Please ensure you have the latest Google Chrome installed and try again. This error typically occurs when there is a mismatch between ChromeDriver and Chrome versions."

/-- `GoogleMapsScraper.setup_driver`: run the retry loop; on success report
the attempts used, otherwise raise (model: `Except.error`) the final
message, which embeds `str(last_error)` unless the Win32 marker occurs in
it, in which case the whole text is replaced by the friendly message. -/
def setup_driver (env : DriverEnv) : Nat × Except String Unit :=
  match setupLoop env 3 0 none with
  | (a, _, true) => (a, Except.ok ())
  | (a, lastErr, false) =>
    let le := lastErr.getD "None"
    let msg := if strContainsB le win32Marker then friendlyWin32
               else "Failed to initialize ChromeDriver: " ++ le
    (a, Except.error msg)

/-- Number of acquisition strategies from the specification's list
(version-matched automatic fetch, default automatic fetch, explicit
local-binary fallback) that are available in an environment: the first and
third need a known Chrome binary path. -/
def availableStrategies (env : DriverEnv) : Nat :=
  (if env.hasChromePath then 1 else 0) + 1 + (if env.hasChromePath then 1 else 0)

/-- Every launch operation of the environment fails. -/
def allFail (env : DriverEnv) : Prop :=
  env.versionFetch.isOk = false ∧ env.defaultFetch.isOk = false ∧
    env.builtin.isOk = false ∧ env.explicitPath.isOk = false

/-- The text of the error recorded last when every strategy fails: the
explicit-path error when a Chrome path is known, otherwise the built-in
launch error (attempt 3 merely re-raises it). -/
def lastErrText (env : DriverEnv) : String :=
  if env.hasChromePath then
    match env.explicitPath with
    | Except.error e => e
    | Except.ok _ => ""
  else
    match env.builtin with
    | Except.error e => e
    | Except.ok _ => ""

/-! ### src/scraper/maps_scraper.py — `extract_business_data` -/

/-- A DOM element as the extractor sees it: its visible text and its
attributes (`href`, `aria-label`, …). -/
structure Elem where
  text : String
  attrs : List (String × String)
deriving DecidableEq, Repr

/-- `element.get_attribute(name)` (`none` when the attribute is absent). -/
def getAttr (e : Elem) (name : String) : Option String :=
  e.attrs.lookup name

/-- A business-detail page: `find s` is `driver.find_element(s)` (`none` =
`NoSuchElementException`); `hoursButtons` lists, per clickable hours
control, the grid-cell texts revealed by clicking it; `navError` is an
exception thrown anywhere inside the extraction body, answered by the
function's outer handler. -/
structure DetailPage where
  find : String → Option Elem
  hoursButtons : List (List String)
  navError : Option String

/-- Generic per-field fallback chain: walk the selectors in order, skip the
ones whose lookup raises `NoSuchElementException`, evaluate the field value
of the first found element, and stop at the first truthy value (a found
element with a falsy value leaves the field empty and the chain moves on,
exactly like the source's `if value: break` pattern). -/
def chainExtract (find : String → Option Elem) (valFn : String → Elem → String) :
    List String → String
  | [] => ""
  | s :: rest =>
    match find s with
    | none => chainExtract find valFn rest
    | some e =>
      let v := valFn s e
      if v ≠ "" then v else chainExtract find valFn rest

/-- Field value read as the element's text. -/
def textVal : String → Elem → String := fun _ e => e.text

/-- Field value for the phone chain: a `tel:` link selector reads the
`href` attribute and strips every `tel:` occurrence, the others read the
text. -/
def phoneVal : String → Elem → String := fun s e =>
  if strStartsWithB s "a[href" then ((getAttr e "href").getD "").replace "tel:" ""
  else e.text

/-- Field value for the website chain: the `href` attribute. -/
def hrefVal : String → Elem → String := fun _ e => (getAttr e "href").getD ""

/-- `element.text or element.get_attribute("aria-label")`, with falsy
results collapsed to the empty string. -/
def elemTextOrLabel (e : Elem) : String :=
  if e.text ≠ "" then e.text else (getAttr e "aria-label").getD ""

/-- Leftmost match of the regex `(\d+\.\d+)` starting at the head of the
character list: a maximal nonempty digit run, a dot, a maximal nonempty
digit run. -/
def matchDecimalAt (cs : List Char) : Option (List Char) :=
  let d1 := cs.takeWhile Char.isDigit
  if d1.isEmpty then none
  else
    match cs.dropWhile Char.isDigit with
    | '.' :: rest2 =>
      let d2 := rest2.takeWhile Char.isDigit
      if d2.isEmpty then none else some (d1 ++ '.' :: d2)
    | _ => none

/-- Scan for the leftmost occurrence of `\d+.\d+` (the dot escaped), as
`re.search(r'(\d+\.\d+)', t)` finds it. -/
def firstDecimalAux : List Char → Option (List Char)
  | [] => none
  | c :: rest =>
    match matchDecimalAt (c :: rest) with
    | some m => some m
    | none => firstDecimalAux rest

/-- `re.search(r'(\d+\.\d+)', t)`: the first decimal token of `t`. -/
def firstDecimalToken (t : String) : Option String :=
  (firstDecimalAux t.data).map String.mk

/-- Scan for the leftmost maximal digit run, as `re.search(r'(\d+)', t)`
finds it. -/
def firstIntAux : List Char → Option (List Char)
  | [] => none
  | c :: rest =>
    if c.isDigit then some (c :: rest.takeWhile Char.isDigit)
    else firstIntAux rest

/-- `re.search(r'(\d+)', t)`: the first integer token of `t`. -/
def firstIntToken (t : String) : Option String :=
  (firstIntAux t.data).map String.mk

/-- What the rating branch stores once it has a nonempty rating text: the
first decimal token when the regex matches, otherwise the raw text. -/
def ratingParse (t : String) : String :=
  match firstDecimalToken t with
  | some m => m
  | none => t

/-- The rating fallback chain: first selector with a found element and a
nonempty text-or-label stops the chain with `ratingParse` of that text. -/
def rating_chain (find : String → Option Elem) : List String → String
  | [] => ""
  | s :: rest =>
    match find s with
    | none => rating_chain find rest
    | some e =>
      let t := elemTextOrLabel e
      if t ≠ "" then ratingParse t else rating_chain find rest

/-- The review-count fallback chain: a selector only stops the chain when
its text-or-label is nonempty *and* contains an integer token (the source
assigns and breaks only inside `if reviews_match`). -/
def reviews_chain (find : String → Option Elem) : List String → String
  | [] => ""
  | s :: rest =>
    match find s with
    | none => reviews_chain find rest
    | some e =>
      let t := elemTextOrLabel e
      match (if t ≠ "" then firstIntToken t else none) with
      | some m => m
      | none => reviews_chain find rest

/-- Selector lists of `extract_business_data`, in source order. -/
def name_selectors : List String :=
  ["h1.fontHeadlineLarge", "h1.section-hero-header-title", "h1", "div.fontHeadlineLarge"]

def address_selectors : List String :=
  ["button[data-item-id='address']", "button[data-tooltip='Copy address']",
   "button[aria-label*='address']", "div[data-attrid='kc:/location/location:address']"]

def phone_selectors : List String :=
  ["button[data-item-id='phone:tel:']", "button[data-tooltip='Copy phone number']",
   "button[aria-label*='phone']", "a[href^='tel:']",
   "div[data-attrid='kc:/collection/knowledge_panels/has_phone:phone']"]

def website_selectors : List String :=
  ["a[data-item-id='authority']", "a[aria-label*='website']",
   "a[data-tooltip='Open website']", "a[href*='http']:not([href*='google'])"]

def category_selectors : List String :=
  ["button[jsaction*='pane.rating.category']", "span[jstcache*='category']",
   "div[jsaction*='category']", "button[jsaction*='category']"]

def rating_selectors : List String :=
  ["div.fontDisplayLarge", "span.section-star-display",
   "span[aria-label*='stars']", "span[aria-label*='rating']"]

def reviews_selectors : List String :=
  ["span[jsaction*='reviews']", "span[aria-label*='reviews']",
   "div[class*='review']", "button[jsaction*='reviews']"]

/-- The weekday tokens scanned for in hours grid cells. -/
def weekdays : List String :=
  ["monday", "tuesday", "wednesday", "thursday", "friday", "saturday", "sunday"]

/-- `d[k] = v` on the hours dict (string values). -/
def setHour : List (String × String) → String → String → List (String × String)
  | [], k, v => [(k, v)]
  | (k2, v2) :: rest, k, v =>
    if k2 = k then (k, v) :: rest else (k2, v2) :: setHour rest k v

/-- Process one grid-cell text: lower-case it and, for every weekday name
it contains, record the text with the weekday removed and trimmed as that
day's schedule. -/
def processCell (hours : List (String × String)) (cell : String) :
    List (String × String) :=
  let t := toLowerStr cell
  weekdays.foldl
    (fun h day => if strContainsB t day then setHour h day (strTrim (t.replace day ""))
                  else h)
    hours

/-- Process the hours buttons in order, stopping at the first button whose
revealed cells yield at least one day (`if business_data["hours"]: break`). -/
def processButtons : List (List String) → List (String × String)
  | [] => []
  | cells :: rest =>
    let h := cells.foldl processCell []
    if h ≠ [] then h else processButtons rest

/-- Coordinate parsing from the URL: the substring between `!3d` and `!4d`
is the latitude, the substring from `!4d` to the next `!` the longitude
(`url.split('!3d')[1].split('!4d')`, then `split('!')[0]`). -/
def parse_coordinates (url : String) : Option (String × String) :=
  match strSplitOn url "!3d" with
  | _ :: p1 :: _ =>
    match strSplitOn p1 "!4d" with
    | la :: l1 :: _ => some (la, (strSplitOn l1 "!").headD l1)
    | _ => none
  | _ => none

/-- The coordinates mapping stored in the record. -/
def coordsMap (url : String) : List (String × String) :=
  match parse_coordinates url with
  | some (la, lo) => [("latitude", la), ("longitude", lo)]
  | none => []

/-- Keep a dict entry when cleaning empty values
(`if v or isinstance(v, dict)`). -/
def keepEntry (v : JVal) : Bool :=
  truthyJ v || (match v with | JVal.map _ => true | _ => false)

/-- `GoogleMapsScraper.extract_business_data`: on an exception anywhere in
the body (`navError`), the outer handler returns `{url, error}`; otherwise
every field is extracted through its own fallback chain, coordinates are
parsed from the URL, and empty non-dict values are dropped from the record
(insertion order preserved). -/
def extract_business_data (page : DetailPage) (url : String) :
    List (String × JVal) :=
  match page.navError with
  | some e => [("url", JVal.str url), ("error", JVal.str e)]
  | none =>
    let bd : List (String × JVal) :=
      [("url", JVal.str url),
       ("name", JVal.str (chainExtract page.find textVal name_selectors)),
       ("address", JVal.str (chainExtract page.find textVal address_selectors)),
       ("phone", JVal.str (chainExtract page.find phoneVal phone_selectors)),
       ("website", JVal.str (chainExtract page.find hrefVal website_selectors)),
       ("category", JVal.str (chainExtract page.find textVal category_selectors)),
       ("rating", JVal.str (rating_chain page.find rating_selectors)),
       ("reviews_count", JVal.str (reviews_chain page.find reviews_selectors)),
       ("hours", JVal.map (processButtons page.hoursButtons)),
       ("coordinates", JVal.map (coordsMap url))]
    bd.filter (fun kv => keepEntry kv.2)

/-! ### Helper lemmas -/

theorem lookup_setKey_self (d : List (String × JVal)) (k : String) (v : JVal) :
    (setKey d k v).lookup k = some v := by
  induction d with
  | nil => simp [setKey]
  | cons kv rest ih =>
    obtain ⟨k2, v2⟩ := kv
    by_cases h : k2 = k
    · simp [setKey, h]
    · have hb : (k == k2) = false := by
        simp only [beq_eq_false_iff_ne, ne_eq]
        exact fun e => h e.symm
      simp [setKey, h, List.lookup, hb, ih]

theorem lookup_setKey_ne (d : List (String × JVal)) (k k2 : String) (v : JVal)
    (h : k2 ≠ k) : (setKey d k v).lookup k2 = d.lookup k2 := by
  have hb : (k2 == k) = false := by
    simp only [beq_eq_false_iff_ne, ne_eq]
    exact h
  induction d with
  | nil => simp [setKey, List.lookup, hb]
  | cons kv rest ih =>
    obtain ⟨k3, v3⟩ := kv
    by_cases h3 : k3 = k
    · subst h3
      simp [setKey, List.lookup, hb]
    · simp [setKey, h3, List.lookup, ih]

theorem lexLe_total : ∀ as bs : List Char, lexLe as bs = true ∨ lexLe bs as = true
  | [], _ => Or.inl rfl
  | _ :: _, [] => Or.inr rfl
  | a :: as, b :: bs => by
    rcases Nat.lt_trichotomy a.toNat b.toNat with h | h | h
    · left; simp [lexLe, h]
    · have h2 : ¬ a.toNat < b.toNat := by omega
      have h3 : ¬ b.toNat < a.toNat := by omega
      rcases lexLe_total as bs with ih | ih
      · left; simp [lexLe, h2, h3, ih]
      · right; simp [lexLe, h2, h3, ih]
    · right; simp [lexLe, h]

theorem lexLe_trans : ∀ as bs cs : List Char,
    lexLe as bs = true → lexLe bs cs = true → lexLe as cs = true
  | [], _, _, _, _ => rfl
  | _ :: _, [], _, h1, _ => by simp [lexLe] at h1
  | _ :: _, _ :: _, [], _, h2 => by simp [lexLe] at h2
  | a :: as, b :: bs, c :: cs, h1, h2 => by
    rcases Nat.lt_trichotomy a.toNat b.toNat with hab | hab | hab
    · rcases Nat.lt_trichotomy b.toNat c.toNat with hbc | hbc | hbc
      · have hac : a.toNat < c.toNat := by omega
        simp [lexLe, hac]
      · have hac : a.toNat < c.toNat := by omega
        simp [lexLe, hac]
      · have hn : ¬ b.toNat < c.toNat := by omega
        simp [lexLe, hbc, hn] at h2
    · rcases Nat.lt_trichotomy b.toNat c.toNat with hbc | hbc | hbc
      · have hac : a.toNat < c.toNat := by omega
        simp [lexLe, hac]
      · have hac : ¬ a.toNat < c.toNat := by omega
        have hca : ¬ c.toNat < a.toNat := by omega
        have hn1 : ¬ a.toNat < b.toNat := by omega
        have hn2 : ¬ b.toNat < a.toNat := by omega
        have hn3 : ¬ b.toNat < c.toNat := by omega
        have hn4 : ¬ c.toNat < b.toNat := by omega
        simp only [lexLe, if_neg hn1, if_neg hn2] at h1
        simp only [lexLe, if_neg hn3, if_neg hn4] at h2
        simp only [lexLe, if_neg hac, if_neg hca]
        exact lexLe_trans as bs cs h1 h2
      · have hn : ¬ b.toNat < c.toNat := by omega
        simp [lexLe, hbc, hn] at h2
    · have hn : ¬ a.toNat < b.toNat := by omega
      simp [lexLe, hab, hn] at h1

theorem emailLEb_total (a b : String) : emailLEb a b = true ∨ emailLEb b a = true := by
  unfold emailLEb
  rcases Nat.lt_trichotomy (priorityRank a) (priorityRank b) with h | h | h
  · left; simp [h]
  · have h2 : ¬ priorityRank a < priorityRank b := by omega
    have h3 : ¬ priorityRank b < priorityRank a := by omega
    rcases lexLe_total a.data b.data with hl | hl
    · left; simp [h2, h3, hl]
    · right; simp [h2, h3, hl]
  · right; simp [h]

theorem emailLEb_trans (a b c : String) (h1 : emailLEb a b = true)
    (h2 : emailLEb b c = true) : emailLEb a c = true := by
  unfold emailLEb at h1 h2 ⊢
  rcases Nat.lt_trichotomy (priorityRank a) (priorityRank b) with hab | hab | hab
  · rcases Nat.lt_trichotomy (priorityRank b) (priorityRank c) with hbc | hbc | hbc
    · have hac : priorityRank a < priorityRank c := by omega
      simp [hac]
    · have hac : priorityRank a < priorityRank c := by omega
      simp [hac]
    · have hn : ¬ priorityRank b < priorityRank c := by omega
      simp [hn, hbc] at h2
  · rcases Nat.lt_trichotomy (priorityRank b) (priorityRank c) with hbc | hbc | hbc
    · have hac : priorityRank a < priorityRank c := by omega
      simp [hac]
    · have hn1 : ¬ priorityRank a < priorityRank b := by omega
      have hn2 : ¬ priorityRank b < priorityRank a := by omega
      have hn3 : ¬ priorityRank b < priorityRank c := by omega
      have hn4 : ¬ priorityRank c < priorityRank b := by omega
      have hn5 : ¬ priorityRank a < priorityRank c := by omega
      have hn6 : ¬ priorityRank c < priorityRank a := by omega
      simp only [if_neg hn1, if_neg hn2] at h1
      simp only [if_neg hn3, if_neg hn4] at h2
      simp only [if_neg hn5, if_neg hn6]
      exact lexLe_trans a.data b.data c.data h1 h2
    · have hn : ¬ priorityRank b < priorityRank c := by omega
      simp [hn, hbc] at h2
  · have hn : ¬ priorityRank a < priorityRank b := by omega
    simp [hn, hab] at h1

instance : IsTotal String emailRel := ⟨emailLEb_total⟩

instance : IsTrans String emailRel := ⟨emailLEb_trans⟩

/-- Ordering guarantee extracted from the sort: a later element can only be
a priority address if the earlier one already is. -/
def priorityBefore (a b : String) : Prop :=
  isPriorityEmail b = true → isPriorityEmail a = true

theorem emailRel_priorityBefore (a b : String) (h : emailRel a b) :
    priorityBefore a b := by
  intro hb
  by_cases ha : isPriorityEmail a
  · exact ha
  · exfalso
    unfold emailRel emailLEb priorityRank at h
    simp [ha, hb] at h

theorem finalize_emails_eq (emails : List String) (bd : List (String × JVal)) :
    finalize_emails emails bd =
      setKey (setKey bd "emails"
          (JVal.strList (List.insertionSort emailRel emails))) "primary_email"
        (primaryOf (List.insertionSort emailRel emails)) := by
  by_cases h : emails = []
  · subst h
    simp [finalize_emails, List.insertionSort, primaryOf]
  · simp [finalize_emails, h]

theorem enrich_shape (scrape : Except String (List String))
    (bd : List (String × JVal)) :
    ∃ l p, enrich_business_data_with_emails scrape bd =
      setKey (setKey bd "emails" (JVal.strList l)) "primary_email" p := by
  cases scrape with
  | error e => exact ⟨[], JVal.null, rfl⟩
  | ok scraped =>
    exact ⟨_, _, finalize_emails_eq _ bd⟩

/-- The claim C2 states that the final email list is sorted with priority
addresses (role prefixes contact/info/hello/support/admin/sales as the
local part) first and lexicographic tie-breaks, and that `primary_email`
is the head of the sorted list (or `None` when it is empty).  This holds:
for every input list, the stored `emails` value is a permutation of the
input, sorted by the priority-then-lexicographic relation `emailRel`
(hence priority addresses precede all others), and `primary_email` is its
first element or `None`; on the concrete input of the claim the sorted
list and primary address are exactly the claimed ones. -/
theorem c2_sorted_emails :
    (∀ emails bd, ∃ l,
        (finalize_emails emails bd).lookup "emails" = some (JVal.strList l) ∧
        l.Perm emails ∧ List.Sorted emailRel l ∧ List.Pairwise priorityBefore l ∧
        (finalize_emails emails bd).lookup "primary_email" = some (primaryOf l)) ∧
    finalize_emails ["zeta@x.com", "info@x.com", "contact@x.com"] [] =
      [("emails", JVal.strList ["contact@x.com", "info@x.com", "zeta@x.com"]),
       ("primary_email", JVal.str "contact@x.com")] := by
  constructor
  · intro emails bd
    refine ⟨List.insertionSort emailRel emails, ?_, ?_, ?_, ?_, ?_⟩
    · rw [finalize_emails_eq]
      rw [lookup_setKey_ne _ _ _ _ (by decide)]
      exact lookup_setKey_self _ _ _
    · exact List.perm_insertionSort emailRel emails
    · exact List.sorted_insertionSort emailRel emails
    · exact (List.sorted_insertionSort emailRel emails).imp
        (fun h => emailRel_priorityBefore _ _ h)
    · rw [finalize_emails_eq]
      exact lookup_setKey_self _ _ _
  · decide

/-- The claim C10 states that enrichment always returns a record carrying
both an `emails` and a `primary_email` entry, that a failure inside
enrichment yields the input record with `emails = []` and
`primary_email = None`, and that no other field is ever altered.  This
holds: the record returned by `enrich_business_data_with_emails` always
binds both keys, every key other than those two keeps its input value on
every path, and on the failure path the two keys are bound to the empty
list and `None`. -/
theorem c10_enrich_total :
    (∀ scrape bd,
        ((enrich_business_data_with_emails scrape bd).lookup "emails").isSome = true ∧
        ((enrich_business_data_with_emails scrape bd).lookup "primary_email").isSome = true) ∧
    (∀ scrape bd k, k ≠ "emails" → k ≠ "primary_email" →
        (enrich_business_data_with_emails scrape bd).lookup k = bd.lookup k) ∧
    (∀ e bd,
        (enrich_business_data_with_emails (Except.error e) bd).lookup "emails" =
          some (JVal.strList []) ∧
        (enrich_business_data_with_emails (Except.error e) bd).lookup "primary_email" =
          some JVal.null) := by
  refine ⟨?_, ?_, ?_⟩
  · intro scrape bd
    obtain ⟨l, p, h⟩ := enrich_shape scrape bd
    rw [h]
    constructor
    · rw [lookup_setKey_ne _ _ _ _ (by decide), lookup_setKey_self]
      rfl
    · rw [lookup_setKey_self]
      rfl
  · intro scrape bd k h1 h2
    obtain ⟨l, p, h⟩ := enrich_shape scrape bd
    rw [h, lookup_setKey_ne _ _ _ _ h2, lookup_setKey_ne _ _ _ _ h1]
  · intro e bd
    constructor
    · show (setKey (setKey bd "emails" (JVal.strList [])) "primary_email"
        JVal.null).lookup "emails" = some (JVal.strList [])
      rw [lookup_setKey_ne _ _ _ _ (by decide)]
      exact lookup_setKey_self _ _ _
    · exact lookup_setKey_self _ _ _

/-- Witness for C10 at a concrete record: a failing enrichment leaves the
`name` field untouched and stores an empty email list. -/
theorem c10_witness :
    (enrich_business_data_with_emails (Except.error "boom")
        [("name", JVal.str "Acme")]).lookup "name" =
      ([("name", JVal.str "Acme")] : List (String × JVal)).lookup "name" ∧
    (enrich_business_data_with_emails (Except.error "boom")
        [("name", JVal.str "Acme")]).lookup "emails" = some (JVal.strList []) :=
  ⟨c10_enrich_total.2.1 (Except.error "boom") [("name", JVal.str "Acme")] "name"
      (by decide) (by decide),
   (c10_enrich_total.2.2 "boom" [("name", JVal.str "Acme")]).1⟩

/-- Counterexample to C6 as stated: after enrichment, a record with no
discovered and no generated e-mails (here: a record without a website)
still carries an explicit `emails` entry bound to the empty list — the
entry is not omitted. -/
theorem c6_counterexample :
    (enrich_business_data_with_emails (Except.ok [])
        [("url", JVal.str "u")]).lookup "emails" = some (JVal.strList []) ∧
    (enrich_business_data_with_emails (Except.ok [])
        [("url", JVal.str "u")]).lookup "emails" ≠ none := by
  decide

/-- The claim C6 (amended) states that after enrichment a record for which
no e-mails were discovered and none were generated carries an explicit
`emails` entry bound to the empty list and a `primary_email` entry bound to
`None` — the empty `emails` entry is present, not omitted (only the
extraction-time cleanup drops empty fields, and it runs before enrichment
adds these keys). -/
theorem c6_amended_empty_emails (bd : List (String × JVal)) (l : List String)
    (h : bd.lookup "website" = none) :
    (enrich_business_data_with_emails (Except.ok l) bd).lookup "emails" =
      some (JVal.strList []) ∧
    (enrich_business_data_with_emails (Except.ok l) bd).lookup "primary_email" =
      some JVal.null := by
  have hw : enrich_business_data_with_emails (Except.ok l) bd =
      finalize_emails [] bd := by
    unfold enrich_business_data_with_emails
    rw [h]
  rw [hw, finalize_emails_eq]
  refine ⟨?_, lookup_setKey_self _ _ _⟩
  rw [lookup_setKey_ne _ _ _ _ (by decide)]
  exact lookup_setKey_self _ _ _

/-- Witness for C6 (amended) at a concrete record without a website. -/
theorem c6_witness :
    (enrich_business_data_with_emails (Except.ok ["found@x.com"])
        [("url", JVal.str "u"), ("name", JVal.str "Acme")]).lookup "emails" =
      some (JVal.strList []) ∧
    (enrich_business_data_with_emails (Except.ok ["found@x.com"])
        [("url", JVal.str "u"), ("name", JVal.str "Acme")]).lookup "primary_email" =
      some JVal.null :=
  c6_amended_empty_emails [("url", JVal.str "u"), ("name", JVal.str "Acme")]
    ["found@x.com"] (by decide)

/-- Counterexample to C5 as stated: with business name "x", website
`https://x.com` and an empty crawl, the generated fallback list contains
`info@x.com` twice (once as the role-prefix address, once as
`info@{clean_name}.{tld}`), so the final `emails` sequence of the enriched
record has a duplicate. -/
theorem c5_counterexample :
    ¬ (emailsOf (enrich_business_data_with_emails (Except.ok [])
        [("name", JVal.str "x"), ("website", JVal.str "https://x.com")])).Nodup := by
  decide

theorem insertIfAbsent_nodup (l : List String) (e : String) (h : l.Nodup) :
    (insertIfAbsent l e).Nodup := by
  unfold insertIfAbsent
  by_cases he : e ∈ l
  · simpa [he]
  · simp [he, List.nodup_append, h]

theorem insertAll_nodup (l es : List String) (h : l.Nodup) :
    (insertAll l es).Nodup := by
  induction es generalizing l with
  | nil => exact h
  | cons e rest ih => exact ih _ (insertIfAbsent_nodup l e h)

theorem crawlRest_nodup (fetch : String → Option PageData) (maxPages : Nat) :
    ∀ (frontier visited : List String) (pc : Nat) (emails trace : List String),
      emails.Nodup → ((crawlRest fetch maxPages frontier visited pc emails trace).1).Nodup := by
  intro frontier
  induction frontier with
  | nil => intro visited pc emails trace h; exact h
  | cons u rest ih =>
    intro visited pc emails trace h
    unfold crawlRest
    by_cases hpc : pc < maxPages
    · simp only [if_pos hpc]
      by_cases hu : u ∈ visited
      · simp only [if_pos hu]
        exact ih _ _ _ _ h
      · simp only [if_neg hu]
        cases fetch u with
        | none => exact ih _ _ _ _ h
        | some pg => exact ih _ _ _ _ (insertAll_nodup _ _ h)
    · simp only [if_neg hpc]
      exact h

theorem emailsOf_finalize (E : List String) (bd : List (String × JVal)) :
    emailsOf (finalize_emails E bd) = List.insertionSort emailRel E := by
  rw [finalize_emails_eq]
  unfold emailsOf
  rw [lookup_setKey_ne _ _ _ _ (by decide), lookup_setKey_self]

theorem enrich_ok_emails (scraped : List String) (bd : List (String × JVal))
    (hne : scraped ≠ []) :
    enrich_business_data_with_emails (Except.ok scraped) bd =
        finalize_emails scraped bd ∨
      enrich_business_data_with_emails (Except.ok scraped) bd =
        finalize_emails [] bd := by
  unfold enrich_business_data_with_emails
  cases hw : bd.lookup "website" with
  | none => right; rfl
  | some v =>
    cases v with
    | str s =>
      by_cases hs : s = ""
      · subst hs; right; simp
      · left
        cases hd : extract_domain_from_url s with
        | none => simp [hs, hd, hne]
        | some d =>
          by_cases hdd : d = ""
          · subst hdd; simp [hs, hd, hne]
          · simp [hs, hd, hdd, hne]
    | strList l2 => right; rfl
    | map m => right; rfl
    | null => right; rfl

/-- The claim C5 (amended) states that e-mail uniqueness is guaranteed for
the website crawl — the crawl accumulates into a set, so its result list is
always duplicate-free, and when the crawl finds anything the enriched
record's final `emails` list is duplicate-free as well — but not for the
generated fallback, whose name-derived addresses can duplicate a
role-prefix address. -/
theorem c5_amended_nodup :
    (∀ (fetch : String → Option PageData) (url : String) (maxPages : Nat),
        ((scrape_website_for_emails fetch url maxPages).1).Nodup) ∧
    (∀ (bd : List (String × JVal)) (scraped : List String),
        scraped.Nodup → scraped ≠ [] →
        (emailsOf (enrich_business_data_with_emails (Except.ok scraped) bd)).Nodup) := by
  constructor
  · intro fetch url maxPages
    unfold scrape_website_for_emails
    by_cases h0 : maxPages = 0
    · simp [h0]
    · simp only [if_neg h0]
      split
      · simp
      · split
        · exact insertAll_nodup _ _ List.nodup_nil
        · exact crawlRest_nodup fetch maxPages _ _ _ _ _
            (insertAll_nodup _ _ List.nodup_nil)
  · intro bd scraped hnd hne
    rcases enrich_ok_emails scraped bd hne with h | h <;> rw [h, emailsOf_finalize]
    · exact ((List.perm_insertionSort emailRel scraped).nodup_iff).2 hnd
    · simp [List.insertionSort]

/-- Witness for C5 (amended): the crawl result is duplicate-free for a
concrete failing fetch, and a record enriched from a concrete nonempty
crawl result has a duplicate-free final list. -/
theorem c5_witness :
    ((scrape_website_for_emails (fun _ => none) "https://x.com" 3).1).Nodup ∧
    (emailsOf (enrich_business_data_with_emails (Except.ok ["a@b.c"]) [])).Nodup :=
  ⟨c5_amended_nodup.1 (fun _ => none) "https://x.com" 3,
   c5_amended_nodup.2 [] ["a@b.c"] (by decide) (by decide)⟩

/-- Counterexample to C1 as stated: with target 100 (≥ 1), initial count 5
and a DOM whose recount returns 3, the loop records the decreased count 3
on its only iteration and returns it, so the count trace `[5, 3]` is not
monotonic non-decreasing. -/
theorem c1_counterexample :
    (1 ≤ 100) ∧
    scroll_results (fun _ => some 3) 100 5 = (3, 1, [5, 3]) ∧
    ¬ List.Chain' (fun a b => a ≤ b) [5, 3] := by
  refine ⟨by omega, by decide, ?_⟩
  simp [List.chain'_cons]

theorem scrollLoop_inv (obs : Nat → Option Nat) (maxResults : Nat) :
    ∀ (fuel prev cur attempts : Nat) (init : List Nat),
      List.Chain' (fun a b => a < b) init →
      (init = [] ∨ init.getLast? = some prev) →
      (scrollLoop obs maxResults fuel prev cur attempts (init ++ [cur])).2.1 ≤
          attempts + fuel ∧
        (scrollLoop obs maxResults fuel prev cur attempts (init ++ [cur])).2.2.getLast? =
          some (scrollLoop obs maxResults fuel prev cur attempts (init ++ [cur])).1 ∧
        List.Chain' (fun a b => a < b)
          (scrollLoop obs maxResults fuel prev cur attempts (init ++ [cur])).2.2.dropLast := by
  intro fuel
  induction fuel with
  | zero =>
    intro prev cur attempts init hchain hlink
    refine ⟨Nat.le_add_right _ _, ?_, ?_⟩
    · simp [scrollLoop]
    · simp [scrollLoop, List.dropLast_concat, hchain]
  | succ fuel ih =>
    intro prev cur attempts init hchain hlink
    by_cases hcond : cur < maxResults ∧ prev < cur ∧ attempts < 10
    · have hstep : scrollLoop obs maxResults (fuel + 1) prev cur attempts (init ++ [cur]) =
          scrollLoop obs maxResults fuel cur ((obs attempts).getD cur) (attempts + 1)
            ((init ++ [cur]) ++ [(obs attempts).getD cur]) := by
        rw [scrollLoop]
        simp [hcond]
      have hchain2 : List.Chain' (fun a b => a < b) (init ++ [cur]) := by
        rw [List.chain'_append]
        refine ⟨hchain, List.chain'_singleton cur, ?_⟩
        intro x hx y hy
        rcases hlink with h | h
        · subst h; simp at hx
        · rw [h] at hx
          simp at hx hy
          have := hcond.2.1
          omega
      have hlink2 : (init ++ [cur]) = [] ∨ (init ++ [cur]).getLast? = some cur := by
        right
        simp
      have := ih cur ((obs attempts).getD cur) (attempts + 1) (init ++ [cur]) hchain2 hlink2
      rw [hstep]
      refine ⟨le_trans this.1 (by omega), this.2.1, this.2.2⟩
    · have hstep : scrollLoop obs maxResults (fuel + 1) prev cur attempts (init ++ [cur]) =
          (cur, attempts, init ++ [cur]) := by
        rw [scrollLoop]
        simp [hcond]
      rw [hstep]
      refine ⟨Nat.le_add_right _ _, ?_, ?_⟩
      · simp
      · simp [List.dropLast_concat, hchain]

/-- The claim C1 (amended) states that the scroll loop always halts after
at most 10 iterations and returns the final count; the count strictly
increases at every iteration except possibly the last one (the loop stops
as soon as the count fails to grow, so only the final recorded count can
break monotonicity — in particular the counts are monotonic non-decreasing
whenever the DOM observations never shrink). -/
theorem c1_amended_scroll (obs : Nat → Option Nat) (maxResults cInit : Nat) :
    (scroll_results obs maxResults cInit).2.1 ≤ 10 ∧
    (scroll_results obs maxResults cInit).2.2.getLast? =
      some (scroll_results obs maxResults cInit).1 ∧
    List.Chain' (fun a b => a < b)
      (scroll_results obs maxResults cInit).2.2.dropLast := by
  have h := scrollLoop_inv obs maxResults 10 0 cInit 0 [] List.chain'_nil (Or.inl rfl)
  simpa [scroll_results] using h

/-- Environment for the C3 counterexample: no Chrome binary path (so, per
the specification's strategy list, only the default automatic fetch is
available) and every launch operation failing. -/
def envNoPath : DriverEnv :=
  ⟨false, Except.error "v", Except.error "d", Except.error "b", Except.error "x"⟩

/-- Counterexample to C3 as stated: in an environment with no Chrome binary
path, only one of the specification's three listed strategies is available
(`min(availableStrategies, 3) = 1`), yet the loop still makes its fixed 3
attempts before raising. -/
theorem c3_counterexample :
    (setup_driver envNoPath).1 = 3 ∧
    min (availableStrategies envNoPath) 3 = 1 ∧
    (setup_driver envNoPath).1 ≠ min (availableStrategies envNoPath) 3 := by
  decide

/-- The claim C3 (amended) states that when every acquisition strategy
fails the driver setup makes exactly 3 attempts — the fixed cap, regardless
of how many distinct strategies the environment makes available — and then
raises an error whose text embeds the last underlying error, except that a
last error containing the Win32-compatibility marker is replaced wholesale
by a normalized friendly message. -/
theorem c3_amended_attempts (env : DriverEnv) (h : allFail env) :
    (setup_driver env).1 = 3 ∧
    (strContainsB (lastErrText env) win32Marker = false →
      (setup_driver env).2 =
        Except.error ("Failed to initialize ChromeDriver: " ++ lastErrText env)) := by
  obtain ⟨h1, h2, h3, h4⟩ := h
  obtain ⟨hcp, vf, df, bi, ep⟩ := env
  cases vf with
  | ok u => simp [Except.isOk, Except.toBool] at h1
  | error ev =>
    cases df with
    | ok u => simp [Except.isOk, Except.toBool] at h2
    | error ed =>
      cases bi with
      | ok u => simp [Except.isOk, Except.toBool] at h3
      | error eb =>
        cases ep with
        | ok u => simp [Except.isOk, Except.toBool] at h4
        | error ee =>
          cases hcp with
          | true =>
            constructor
            · simp [setup_driver, setupLoop, setupAttempt]
            · intro hc
              simp [lastErrText] at hc
              simp [setup_driver, setupLoop, setupAttempt, lastErrText, hc]
          | false =>
            constructor
            · simp [setup_driver, setupLoop, setupAttempt]
            · intro hc
              simp [lastErrText] at hc
              simp [setup_driver, setupLoop, setupAttempt, lastErrText, hc]

/-- Witness environment for C3 (amended): a Chrome path is available and
all four launch operations fail. -/
def envAllFail : DriverEnv :=
  ⟨true, Except.error "a", Except.error "b", Except.error "c", Except.error "d"⟩

/-- Witness for C3 (amended) at a concrete environment. -/
theorem c3_witness :
    (setup_driver envAllFail).1 = 3 ∧
    (setup_driver envAllFail).2 =
      Except.error ("Failed to initialize ChromeDriver: " ++ lastErrText envAllFail) :=
  ⟨(c3_amended_attempts envAllFail ⟨rfl, rfl, rfl, rfl⟩).1,
   (c3_amended_attempts envAllFail ⟨rfl, rfl, rfl, rfl⟩).2 (by decide)⟩

/-- A detail page on which no selector matches anything. -/
def emptyFind : String → Option Elem := fun _ => none

/-- Counterexample to C4 as stated: on a page where every selector chain
yields nothing but whose url embeds `!3d…!4d…` coordinate markers, the
returned record binds `coordinates` to a non-empty mapping parsed from the
url, not to an empty one. -/
theorem c4_counterexample :
    (extract_business_data ⟨emptyFind, [], none⟩
        "https://g/maps/place/x!3d40.7128!4d-74.0060!16s").lookup "coordinates" =
      some (JVal.map [("latitude", "40.7128"), ("longitude", "-74.0060")]) ∧
    JVal.map [("latitude", "40.7128"), ("longitude", "-74.0060")] ≠ JVal.map [] := by
  decide

theorem chainExtract_none (find : String → Option Elem)
    (valFn : String → Elem → String) (h : ∀ s, find s = none) :
    ∀ sels, chainExtract find valFn sels = "" := by
  intro sels
  induction sels with
  | nil => rfl
  | cons s rest ih => simp [chainExtract, h s, ih]

theorem rating_chain_none (find : String → Option Elem) (h : ∀ s, find s = none) :
    ∀ sels, rating_chain find sels = "" := by
  intro sels
  induction sels with
  | nil => rfl
  | cons s rest ih => simp [rating_chain, h s, ih]

theorem reviews_chain_none (find : String → Option Elem) (h : ∀ s, find s = none) :
    ∀ sels, reviews_chain find sels = "" := by
  intro sels
  induction sels with
  | nil => rfl
  | cons s rest ih => simp [reviews_chain, h s, ih]

/-- The claim C4 (amended) states that detail extraction never lets an
exception escape — any failure inside the body is converted by the outer
handler into the record `{url, error}` — and that on a page where every
selector chain yields nothing, no hours button reveals any day, the url is
nonempty and the url carries no `!3d`/`!4d` coordinate markers, the result
is exactly the record with the url plus `hours` and `coordinates` bound to
empty mappings. -/
theorem c4_amended_extract :
    (∀ (page : DetailPage) (url e : String), page.navError = some e →
        extract_business_data page url =
          [("url", JVal.str url), ("error", JVal.str e)]) ∧
    (∀ (find : String → Option Elem) (hb : List (List String)) (url : String),
        url ≠ "" → (∀ s, find s = none) → processButtons hb = [] →
        parse_coordinates url = none →
        extract_business_data ⟨find, hb, none⟩ url =
          [("url", JVal.str url), ("hours", JVal.map []), ("coordinates", JVal.map [])]) := by
  constructor
  · intro page url e h
    unfold extract_business_data
    rw [h]
  · intro find hb url hurl hfind hhb hcoord
    unfold extract_business_data
    simp only [chainExtract_none find textVal hfind, chainExtract_none find phoneVal hfind,
      chainExtract_none find hrefVal hfind, rating_chain_none find hfind,
      reviews_chain_none find hfind, hhb, coordsMap, hcoord]
    simp [keepEntry, truthyJ, hurl]

/-- Witness for C4 (amended): both conclusions at concrete inputs — an
exception becomes the `{url, error}` record, and extraction on an entirely
empty fixture with a marker-free url yields exactly
`{url, hours: {}, coordinates: {}}`. -/
theorem c4_witness :
    extract_business_data ⟨emptyFind, [], some "boom"⟩ "u" =
      [("url", JVal.str "u"), ("error", JVal.str "boom")] ∧
    extract_business_data ⟨emptyFind, [], none⟩ "https://maps/place/a" =
      [("url", JVal.str "https://maps/place/a"),
       ("hours", JVal.map []), ("coordinates", JVal.map [])] :=
  ⟨c4_amended_extract.1 ⟨emptyFind, [], some "boom"⟩ "u" "boom" rfl,
   c4_amended_extract.2 emptyFind [] "https://maps/place/a" (by decide)
     (fun _ => rfl) rfl (by decide)⟩

/-- A network oracle that only serves the scheme-normalized address
`https://example.com` (a bare `example.com` request raises
`MissingSchema`, i.e. fails). -/
def fetchNormalizedOnly : String → Option PageData := fun u =>
  if u = "https://example.com" then some ⟨["owner@example.com"], []⟩ else none

/-- The claim C7 names a real code bug: the crawl frontier is seeded with
the raw address *before* the scheme normalization, so for the scheme-less
website `example.com` the one and only fetch goes to `example.com` itself
(where the request fails) and the normalized `https://example.com` — whose
page here contains an e-mail — is never fetched: the crawl returns no
e-mails and its fetch trace is exactly `["example.com"]`. -/
theorem c7_first_fetch_raw :
    scrape_website_for_emails fetchNormalizedOnly "example.com" 3 =
      ([], ["example.com"]) ∧
    strStartsWithB "example.com" "https://" = false := by
  decide

/-- Counterexample to C8 as stated: a first page with two matching links
`/contact` and `/about` enqueues both resolved addresses, not only the
first same-domain match. -/
theorem c8_counterexample :
    processLinks "x.com" ["https://x.com"] [] none
        [⟨"/contact", "Contact Us"⟩, ⟨"/about", "About"⟩] =
      Except.ok ["https://x.com/contact", "https://x.com/about"] ∧
    (["https://x.com/contact", "https://x.com/about"] : List String) ≠
      ["https://x.com/contact"] :=
  ⟨by rfl, by decide⟩

theorem stepLink_extend (domain : String) (visited frontier : List String)
    (lastC : Option String) (a : Anchor) (f2 : List String) (l2 : Option String)
    (h : stepLink domain visited frontier lastC a = Except.ok (f2, l2)) :
    ∃ r, f2 = frontier ++ r := by
  have key : ∀ cu : String,
      (Except.ok ((if cu ∉ visited ∧ cu ∉ frontier then frontier ++ [cu]
          else frontier : List String), (some cu : Option String)) :
        Except Unit (List String × Option String)) =
        Except.ok (f2, l2) →
      ∃ r, f2 = frontier ++ r := by
    intro cu hq
    injection hq with h2
    rw [Prod.mk.injEq] at h2
    obtain ⟨hf, _⟩ := h2
    by_cases hin : cu ∉ visited ∧ cu ∉ frontier
    · rw [if_pos hin] at hf
      exact ⟨[cu], hf.symm⟩
    · rw [if_neg hin] at hf
      exact ⟨[], by simpa using hf.symm⟩
  unfold stepLink at h
  by_cases hm : linkMatches a
  · rw [if_pos hm] at h
    cases hro : resolveContactUrl domain a.href with
    | some cu =>
      rw [hro] at h
      exact key cu h
    | none =>
      rw [hro] at h
      cases lastC with
      | some cu => exact key cu h
      | none => exact absurd h (by simp)
  · rw [if_neg hm] at h
    injection h with h2
    rw [Prod.mk.injEq] at h2
    exact ⟨[], by simpa using h2.1.symm⟩

theorem stepLink_complete (domain : String) (visited frontier : List String)
    (lastC : Option String) (a : Anchor) (f2 : List String) (l2 : Option String)
    (h : stepLink domain visited frontier lastC a = Except.ok (f2, l2))
    (hm : linkMatches a = true) (cu : String)
    (hr : resolveContactUrl domain a.href = some cu) :
    cu ∈ f2 ∨ cu ∈ visited := by
  unfold stepLink at h
  rw [if_pos hm, hr] at h
  have h2 : (Except.ok ((if cu ∉ visited ∧ cu ∉ frontier then frontier ++ [cu]
      else frontier : List String), (some cu : Option String)) :
      Except Unit (List String × Option String)) =
      Except.ok (f2, l2) := h
  injection h2 with h3
  rw [Prod.mk.injEq] at h3
  obtain ⟨hfst, _⟩ := h3
  by_cases hv : cu ∈ visited
  · exact Or.inr hv
  · left
    by_cases hf : cu ∈ frontier
    · have hin : ¬ (cu ∉ visited ∧ cu ∉ frontier) := fun hc => hc.2 hf
      rw [if_neg hin] at hfst
      rw [← hfst]
      exact hf
    · have hin : cu ∉ visited ∧ cu ∉ frontier := ⟨hv, hf⟩
      rw [if_pos hin] at hfst
      rw [← hfst]
      exact List.mem_append_right _ (List.mem_singleton.2 rfl)

theorem processLinks_extend (domain : String) (visited : List String) :
    ∀ (anchors : List Anchor) (frontier : List String) (lastC : Option String)
      (frontier2 : List String),
      processLinks domain visited frontier lastC anchors = Except.ok frontier2 →
      ∃ rest, frontier2 = frontier ++ rest := by
  intro anchors
  induction anchors with
  | nil =>
    intro frontier lastC frontier2 h
    simp [processLinks] at h
    exact ⟨[], by simp [h]⟩
  | cons a rest ih =>
    intro frontier lastC frontier2 h
    unfold processLinks at h
    cases hs : stepLink domain visited frontier lastC a with
    | error e => rw [hs] at h; simp [Except.bind] at h
    | ok p =>
      obtain ⟨f2, l2⟩ := p
      rw [hs] at h
      simp only [Except.bind] at h
      obtain ⟨r1, hr1⟩ := stepLink_extend domain visited frontier lastC a f2 l2 hs
      obtain ⟨r2, hr2⟩ := ih f2 l2 frontier2 h
      exact ⟨r1 ++ r2, by rw [hr2, hr1, List.append_assoc]⟩

theorem processLinks_complete (domain : String) (visited : List String) :
    ∀ (anchors : List Anchor) (frontier : List String) (lastC : Option String)
      (frontier2 : List String),
      processLinks domain visited frontier lastC anchors = Except.ok frontier2 →
      ∀ a ∈ anchors, linkMatches a = true →
        ∀ cu, resolveContactUrl domain a.href = some cu →
          cu ∈ frontier2 ∨ cu ∈ visited := by
  intro anchors
  induction anchors with
  | nil =>
    intro frontier lastC frontier2 h a ha
    simp at ha
  | cons a0 rest ih =>
    intro frontier lastC frontier2 h a ha hm cu hr
    unfold processLinks at h
    cases hs : stepLink domain visited frontier lastC a0 with
    | error e => rw [hs] at h; simp [Except.bind] at h
    | ok p =>
      obtain ⟨f2, l2⟩ := p
      rw [hs] at h
      simp only [Except.bind] at h
      rcases List.mem_cons.1 ha with hhead | htail
      · subst hhead
        rcases stepLink_complete domain visited frontier lastC a f2 l2 hs hm cu hr with
          hcu | hcu
        · left
          obtain ⟨r2, hr2⟩ := processLinks_extend domain visited rest f2 l2 frontier2 h
          rw [hr2]
          exact List.mem_append_left _ hcu
        · exact Or.inr hcu
      · exact ih f2 l2 frontier2 h a htail hm cu hr

theorem crawlRest_trace (fetch : String → Option PageData) (maxPages : Nat) :
    ∀ (frontier visited : List String) (pc : Nat) (emails trace : List String)
      (u : String),
      u ∈ (crawlRest fetch maxPages frontier visited pc emails trace).2 →
      u ∈ trace ∨ u ∈ frontier := by
  intro frontier
  induction frontier with
  | nil =>
    intro visited pc emails trace u hu
    exact Or.inl hu
  | cons v rest ih =>
    intro visited pc emails trace u hu
    unfold crawlRest at hu
    by_cases hpc : pc < maxPages
    · rw [if_pos hpc] at hu
      by_cases hv : v ∈ visited
      · rw [if_pos hv] at hu
        rcases ih _ _ _ _ _ hu with h | h
        · exact Or.inl h
        · exact Or.inr (List.mem_cons_of_mem _ h)
      · rw [if_neg hv] at hu
        cases hfv : fetch v with
        | none =>
          rw [hfv] at hu
          rcases ih _ _ _ _ _ hu with h | h
          · rcases List.mem_append.1 h with h2 | h2
            · exact Or.inl h2
            · exact Or.inr (List.mem_cons.2 (Or.inl (List.mem_singleton.1 h2)))
          · exact Or.inr (List.mem_cons_of_mem _ h)
        | some pg =>
          rw [hfv] at hu
          rcases ih _ _ _ _ _ hu with h | h
          · rcases List.mem_append.1 h with h2 | h2
            · exact Or.inl h2
            · exact Or.inr (List.mem_cons.2 (Or.inl (List.mem_singleton.1 h2)))
          · exact Or.inr (List.mem_cons_of_mem _ h)
    · rw [if_neg hpc] at hu
      exact Or.inl hu

/-- The claim C8 (amended) states that the contact/about anchor scan runs
only while the first fetched page is processed — afterwards the crawl
fetches only addresses already on its frontier — and that the scan enqueues
*every* matching anchor (in document order) whose resolved address is not
already visited or queued, not just the first one: the frontier is only
extended, and every matching anchor that resolves is in the final frontier
or already visited. -/
theorem c8_amended_enqueue :
    (∀ (domain : String) (visited : List String) (anchors : List Anchor)
        (frontier : List String) (lastC : Option String) (frontier2 : List String),
        processLinks domain visited frontier lastC anchors = Except.ok frontier2 →
        (∃ rest, frontier2 = frontier ++ rest) ∧
        ∀ a ∈ anchors, linkMatches a = true →
          ∀ cu, resolveContactUrl domain a.href = some cu →
            cu ∈ frontier2 ∨ cu ∈ visited) ∧
    (∀ (fetch : String → Option PageData) (maxPages : Nat)
        (frontier visited : List String) (pc : Nat) (emails trace : List String)
        (u : String),
        u ∈ (crawlRest fetch maxPages frontier visited pc emails trace).2 →
        u ∈ trace ∨ u ∈ frontier) := by
  constructor
  · intro domain visited anchors frontier lastC frontier2 h
    exact ⟨processLinks_extend domain visited anchors frontier lastC frontier2 h,
      processLinks_complete domain visited anchors frontier lastC frontier2 h⟩
  · intro fetch maxPages frontier visited pc emails trace u hu
    exact crawlRest_trace fetch maxPages frontier visited pc emails trace u hu

/-- Witness for C8 (amended) at concrete inputs: the single matching link
of a concrete page ends up enqueued, and a concrete later-phase crawl only
fetches frontier addresses. -/
theorem c8_witness :
    ("https://x.com/contact" ∈ (["https://x.com/contact"] : List String) ∨
      "https://x.com/contact" ∈ ([] : List String)) ∧
    ("https://y.com" ∈ ([] : List String) ∨
      "https://y.com" ∈ (["https://y.com"] : List String)) :=
  ⟨(c8_amended_enqueue.1 "x.com" [] [⟨"/contact", "Contact Us"⟩] [] none
        ["https://x.com/contact"] (by rfl)).2
      ⟨"/contact", "Contact Us"⟩ (List.mem_singleton.2 rfl) (by decide)
      "https://x.com/contact" (by rfl),
   c8_amended_enqueue.2 (fun _ => none) 3 ["https://y.com"] [] 0 [] []
      "https://y.com" (by decide)⟩

/-- A page whose rating element shows the integer-only text `5 stars`. -/
def findRating5 : String → Option Elem := fun s =>
  if s = "div.fontDisplayLarge" then some ⟨"5 stars", []⟩ else none

/-- Counterexample to C9 as stated: a rating text containing only an
integer token is stored verbatim — the chain yields `"5 stars"`, not the
claimed first numeric token `"5"` (the rating regex only matches decimal
tokens and otherwise keeps the raw text). -/
theorem c9_counterexample :
    rating_chain findRating5 rating_selectors = "5 stars" ∧
    ("5 stars" : String) ≠ "5" := by
  decide

/-- The claim C9 (amended) states that the stored rating equals the first
*decimal* token of the rating text when one exists and the raw text
otherwise, while the stored review count is the first *integer* token of
the first selector text that contains one (a selector whose text has no
integer token is skipped). -/
theorem c9_amended_parsing :
    (∀ t m, firstDecimalToken t = some m → ratingParse t = m) ∧
    (∀ t, firstDecimalToken t = none → ratingParse t = t) ∧
    (∀ (find : String → Option Elem) (sels : List String),
        reviews_chain find sels = "" ∨
        ∃ s e, s ∈ sels ∧ find s = some e ∧
          firstIntToken (elemTextOrLabel e) = some (reviews_chain find sels)) := by
  refine ⟨?_, ?_, ?_⟩
  · intro t m h
    unfold ratingParse
    rw [h]
  · intro t h
    unfold ratingParse
    rw [h]
  · intro find sels
    induction sels with
    | nil => exact Or.inl rfl
    | cons s rest ih =>
      cases hf : find s with
      | none =>
        have hred : reviews_chain find (s :: rest) = reviews_chain find rest := by
          simp [reviews_chain, hf]
        rw [hred]
        rcases ih with h | ⟨s2, e2, hs2, hf2, hm2⟩
        · exact Or.inl h
        · exact Or.inr ⟨s2, e2, List.mem_cons_of_mem _ hs2, hf2, hm2⟩
      | some e =>
        cases hm : (if elemTextOrLabel e ≠ "" then firstIntToken (elemTextOrLabel e)
            else none) with
        | some m =>
          have hred : reviews_chain find (s :: rest) = m := by
            simp only [reviews_chain, hf]
            rw [hm]
          rw [hred]
          right
          refine ⟨s, e, List.mem_cons_self _ _, hf, ?_⟩
          by_cases ht : elemTextOrLabel e ≠ ""
          · rw [if_pos ht] at hm
            exact hm
          · rw [if_neg ht] at hm
            exact absurd hm (by simp)
        | none =>
          have hred : reviews_chain find (s :: rest) = reviews_chain find rest := by
            simp only [reviews_chain, hf]
            rw [hm]
          rw [hred]
          rcases ih with h | ⟨s2, e2, hs2, hf2, hm2⟩
          · exact Or.inl h
          · exact Or.inr ⟨s2, e2, List.mem_cons_of_mem _ hs2, hf2, hm2⟩

/-- Witness for C9 (amended) at concrete texts: a decimal token is
extracted, an integer-only text is kept verbatim. -/
theorem c9_witness :
    ratingParse "4.5 stars" = "4.5" ∧ ratingParse "five" = "five" :=
  ⟨c9_amended_parsing.1 "4.5 stars" "4.5" (by decide),
   c9_amended_parsing.2.1 "five" (by decide)⟩

end Leadgen
